import Mathlib

/-!
Shallow embedding of the per-core execution-context and messaging layer of
the runtime kernel (`rt` namespace in the C++ source): the `ThreadMessage`
record, the `EngineThread` realm message queue with its two producer paths
and one consumer path, the `Engine::Threads` registry, and the
`Engine::Enter` / `Isolate` boot path.

Modelling conventions:
- `SharedVector<ThreadMessage*>` is modelled as a list of messages together
  with an explicit capacity field (`ThreadMessagesVector`), since the
  interrupt-context push path branches on `size() < capacity()`.
- The vector growth policy of `push_back` when full is internal to the
  vector library (EASTL); it is modelled as geometric growth.  No theorem
  below depends on the exact grown capacity, only on the fact that a push
  guarded by `size < capacity` leaves the capacity unchanged.
- `ResourceHandle<EngineThread>` values are modelled by natural-number ids;
  distinct allocations yield distinct ids, which the registry model tracks
  with an allocation counter.
- `RT_ASSERT` failure aborts the kernel; it is modelled by the
  `AssertOutcome.fatalAssert` outcome (for `sender()`) and by
  `EnterOutcome.fatalAssert` (for `Engine::Enter`).
- `TransportData` payloads and `ExternalFunction*` descriptors are opaque
  collaborators; they are modelled as `Nat` and `Option Nat`.
-/

/-- Message kind tag, from `ThreadMessage::Type` in engines.h. -/
inductive MessageType
  | EMPTY
  | SET_ARGUMENTS
  | EVALUATE
  | TIMEOUT_EVENT
  | IRQ_RAISE
  | FUNCTION_CALL
  | FUNCTION_RETURN_RESOLVE
  | FUNCTION_RETURN_REJECT
deriving DecidableEq

/-- One cross-realm message, from class `ThreadMessage`.  `sender_` models
the `ResourceHandle<EngineThread>` field, with `none` standing for an empty
handle (system-originated message); `data_` is the opaque payload. -/
structure ThreadMessage where
  type_ : MessageType
  sender_ : Option Nat
  data_ : Nat
  efn_ : Option Nat
  recv_index_ : Nat
  reusable_ : Bool
deriving DecidableEq

/-- Outcome of an operation guarded by `RT_ASSERT`: either a value or a
fatal kernel abort. -/
inductive AssertOutcome (α : Type)
  | ok (value : α)
  | fatalAssert
deriving DecidableEq

/-- From `ThreadMessage::sender()`: `RT_ASSERT(!sender_.empty()); return
sender_;` — reading an absent sender is a fatal assertion failure. -/
def ThreadMessage.sender (m : ThreadMessage) : AssertOutcome Nat :=
  match m.sender_ with
  | none => AssertOutcome.fatalAssert
  | some s => AssertOutcome.ok s

/-- The realm message queue backing store,
`SharedVector<ThreadMessage*>` (`EngineThread::ThreadMessagesVector`):
a list of stored messages plus the vector capacity. -/
structure ThreadMessagesVector where
  data : List ThreadMessage
  cap : Nat
deriving DecidableEq

/-- Vector `size()`. -/
def ThreadMessagesVector.size (v : ThreadMessagesVector) : Nat :=
  v.data.length

/-- Vector `capacity()`. -/
def ThreadMessagesVector.capacity (v : ThreadMessagesVector) : Nat :=
  v.cap

/-- A default-constructed vector: no elements, no reserved storage. -/
def ThreadMessagesVector.empty : ThreadMessagesVector :=
  ⟨[], 0⟩

/-- Vector `push_back`: appends; if the vector is full it reallocates
(geometric growth), otherwise the capacity is unchanged. -/
def ThreadMessagesVector.push_back (v : ThreadMessagesVector)
    (m : ThreadMessage) : ThreadMessagesVector :=
  { data := v.data ++ [m],
    cap := if v.data.length < v.cap then v.cap
           else max (2 * v.cap) (v.data.length + 1) }

/-- Vector `reserve(n)`: grows the capacity to at least `n`, never
shrinks. -/
def ThreadMessagesVector.reserve (v : ThreadMessagesVector)
    (n : Nat) : ThreadMessagesVector :=
  { v with cap := max v.cap n }

/-- Realm scheduling status, from `EngineThread::Status`. -/
inductive Status
  | EMPTY
  | NOT_STARTED
  | RUNNING
  | PAUSED
deriving DecidableEq

/-- A realm (`class EngineThread`): status plus the locked inbound message
queue.  The `engine_` back-pointer and the `thread_` scheduler slot are
external collaborators not needed by any queue theorem; the `c_locker_`
lock is implicit in the sequential model. -/
structure EngineThread where
  status_ : Status
  messages_ : ThreadMessagesVector
deriving DecidableEq

/-- The `EngineThread(Engine*)` constructor: status `EMPTY`, message
vector default-constructed. -/
def EngineThread.new : EngineThread :=
  ⟨Status.EMPTY, ThreadMessagesVector.empty⟩

/-- `EngineThread::TakeMessages`: under the lock, if the queue is empty
return a default-constructed (empty) vector and do nothing; otherwise swap
the queue with the empty local vector, `reserve(128)` on the now-empty live
queue, and return the detached batch. -/
def EngineThread.TakeMessages (t : EngineThread) :
    ThreadMessagesVector × EngineThread :=
  if t.messages_.size = 0 then (ThreadMessagesVector.empty, t)
  else (t.messages_,
    { t with messages_ := ThreadMessagesVector.empty.reserve 128 })

/-- `EngineThread::PushMessage`: ordinary-context push; always appends
(`messages_.push_back(message.release())`), growing storage as needed. -/
def EngineThread.PushMessage (t : EngineThread)
    (m : ThreadMessage) : EngineThread :=
  { t with messages_ := t.messages_.push_back m }

/-- `EngineThread::PushMessageIRQ`: interrupt-context push; appends only
when `messages_.size() < messages_.capacity()` (so no allocation can
happen), otherwise silently drops the message. -/
def EngineThread.PushMessageIRQ (t : EngineThread)
    (m : ThreadMessage) : EngineThread :=
  if t.messages_.size < t.messages_.capacity
  then { t with messages_ := t.messages_.push_back m }
  else t

/-- One operation of a sequential history on a single realm's queue. -/
inductive QueueOp
  | pushOrd (m : ThreadMessage)
  | pushIRQ (m : ThreadMessage)
  | drain
deriving DecidableEq

/-- Whether an operation is an ordinary-context push. -/
def QueueOp.isOrdinary : QueueOp → Bool
  | QueueOp.pushOrd _ => true
  | _ => false

/-- State of a sequential history: the realm, the messages accepted so far
(in push order; a dropped interrupt-context push is not accepted), and the
concatenation of all drain results so far (in drain order). -/
structure TraceState where
  realm : EngineThread
  accepted : List ThreadMessage
  drained : List ThreadMessage
deriving DecidableEq

/-- One step of a history.  An interrupt-context push is recorded as
accepted exactly under the guard `PushMessageIRQ` itself uses. -/
def stepOp (s : TraceState) : QueueOp → TraceState
  | QueueOp.pushOrd m =>
      { s with realm := s.realm.PushMessage m,
               accepted := s.accepted ++ [m] }
  | QueueOp.pushIRQ m =>
      { s with realm := s.realm.PushMessageIRQ m,
               accepted :=
                 if s.realm.messages_.size < s.realm.messages_.capacity
                 then s.accepted ++ [m] else s.accepted }
  | QueueOp.drain =>
      { s with realm := (s.realm.TakeMessages).2,
               drained := s.drained ++ (s.realm.TakeMessages).1.data }

/-- Initial history state: a freshly constructed realm, nothing accepted,
nothing drained. -/
def initState : TraceState :=
  ⟨EngineThread.new, [], []⟩

/-- Run a whole history from the fresh realm. -/
def runTrace (ops : List QueueOp) : TraceState :=
  ops.foldl stepOp initState

/-- Interrupt-context pushes folded over a queue state. -/
lemma foldl_pushIRQ (ms : List ThreadMessage) : ∀ t : EngineThread,
    (ms.foldl EngineThread.PushMessageIRQ t).messages_.data
      = t.messages_.data ++ ms.take (t.messages_.cap - t.messages_.data.length) ∧
    (ms.foldl EngineThread.PushMessageIRQ t).messages_.cap = t.messages_.cap := by
  induction ms with
  | nil => intro t; simp
  | cons m ms ih =>
    intro t
    by_cases h : t.messages_.data.length < t.messages_.cap
    · have hstep : t.PushMessageIRQ m
          = { t with messages_ := ⟨t.messages_.data ++ [m], t.messages_.cap⟩ } := by
        simp [EngineThread.PushMessageIRQ, ThreadMessagesVector.size,
          ThreadMessagesVector.capacity, ThreadMessagesVector.push_back, h]
      have hsub : t.messages_.cap - t.messages_.data.length
          = (t.messages_.cap - (t.messages_.data.length + 1)) + 1 := by omega
      have := ih { t with messages_ := ⟨t.messages_.data ++ [m], t.messages_.cap⟩ }
      simp only [List.foldl_cons, hstep]
      refine ⟨?_, by simpa using this.2⟩
      rw [this.1]
      simp [hsub, List.append_assoc]
    · have hstep : t.PushMessageIRQ m = t := by
        simp [EngineThread.PushMessageIRQ, ThreadMessagesVector.size,
          ThreadMessagesVector.capacity, h]
      have hz : t.messages_.cap - t.messages_.data.length = 0 := by omega
      have := ih t
      simp only [List.foldl_cons, hstep]
      refine ⟨?_, this.2⟩
      rw [this.1]
      simp [hz]

/-- C1: starting from any queue state with size `s` and reserved capacity
`C`, a run of interrupt-context pushes with no intervening drain or
ordinary-context push retains exactly the first `C - s` pushed messages,
appended in push order, and silently discards the rest; the capacity (and
hence the allocation) is unchanged throughout, and no error is reported
(the operation is total on states). -/
theorem pushMessageIRQ_capacity_bound (t : EngineThread)
    (ms : List ThreadMessage) :
    (ms.foldl EngineThread.PushMessageIRQ t).messages_.data
      = t.messages_.data
          ++ ms.take (t.messages_.capacity - t.messages_.size) ∧
    (ms.foldl EngineThread.PushMessageIRQ t).messages_.capacity
      = t.messages_.capacity := by
  have h := foldl_pushIRQ ms t
  exact ⟨h.1, h.2⟩

/-- C3: `TakeMessages` returns an empty batch exactly when no message is
pending at call time; on a non-empty queue it returns all pending messages
in push order, leaves the live queue empty, and reserves 128 slots of
capacity on the live queue. -/
theorem takeMessages_drains (t : EngineThread) :
    ((t.TakeMessages).1.data = [] ↔ t.messages_.data = []) ∧
    (t.messages_.data ≠ [] →
      (t.TakeMessages).1 = t.messages_ ∧
      (t.TakeMessages).2.messages_.data = [] ∧
      (t.TakeMessages).2.messages_.cap = 128) := by
  by_cases h : t.messages_.data = []
  · simp [EngineThread.TakeMessages, ThreadMessagesVector.size, h,
      ThreadMessagesVector.empty]
  · have hs : ¬ t.messages_.size = 0 := by
      simpa [ThreadMessagesVector.size, List.length_eq_zero] using h
    simp [EngineThread.TakeMessages, hs, h, ThreadMessagesVector.empty,
      ThreadMessagesVector.reserve]

/-- A concrete message used by the evaluation theorems below. -/
def msg0 : ThreadMessage :=
  ⟨MessageType.EMPTY, none, 0, none, 0, false⟩

/-- A concrete realm with one pending message and spare capacity. -/
def tC3 : EngineThread :=
  ⟨Status.RUNNING, ⟨[msg0], 4⟩⟩

/-- Witness for C3 on a concrete non-empty queue. -/
theorem takeMessages_drains_witness :
    (tC3.TakeMessages).1 = tC3.messages_ ∧
    (tC3.TakeMessages).2.messages_.data = [] ∧
    (tC3.TakeMessages).2.messages_.cap = 128 :=
  (takeMessages_drains tC3).2 (by decide)

/-- C4: an ordinary-context push always appends the message at the end of
the queue and never drops it: the queue grows by exactly one element and
its last element is the pushed message. -/
theorem pushMessage_appends (t : EngineThread) (m : ThreadMessage) :
    (t.PushMessage m).messages_.data = t.messages_.data ++ [m] ∧
    (t.PushMessage m).messages_.size = t.messages_.size + 1 ∧
    (t.PushMessage m).messages_.data.getLast? = some m := by
  refine ⟨rfl, ?_, ?_⟩
  · simp [EngineThread.PushMessage, ThreadMessagesVector.push_back,
      ThreadMessagesVector.size]
  · simp [EngineThread.PushMessage, ThreadMessagesVector.push_back]

/-- One history step preserves the accounting invariant: the accepted
messages are the already-drained ones followed by the still-pending
queue contents. -/
lemma stepOp_inv (s : TraceState) (op : QueueOp)
    (h : s.accepted = s.drained ++ s.realm.messages_.data) :
    (stepOp s op).accepted
      = (stepOp s op).drained ++ (stepOp s op).realm.messages_.data := by
  cases op with
  | pushOrd m =>
      simp [stepOp, EngineThread.PushMessage, ThreadMessagesVector.push_back,
        h, List.append_assoc]
  | pushIRQ m =>
      by_cases hc : s.realm.messages_.size < s.realm.messages_.capacity
      · simp [stepOp, EngineThread.PushMessageIRQ, hc,
          ThreadMessagesVector.push_back, h, List.append_assoc]
      · simp [stepOp, EngineThread.PushMessageIRQ, hc, h]
  | drain =>
      by_cases hd : s.realm.messages_.size = 0
      · have hnil : s.realm.messages_.data = [] := by
          simpa [ThreadMessagesVector.size, List.length_eq_zero] using hd
        simp [stepOp, EngineThread.TakeMessages, hd, hnil,
          ThreadMessagesVector.empty, h]
      · simp [stepOp, EngineThread.TakeMessages, hd,
          ThreadMessagesVector.empty, ThreadMessagesVector.reserve, h]

/-- The accounting invariant holds after any run of history steps. -/
lemma foldl_stepOp_inv (ops : List QueueOp) : ∀ s : TraceState,
    s.accepted = s.drained ++ s.realm.messages_.data →
    (ops.foldl stepOp s).accepted
      = (ops.foldl stepOp s).drained
          ++ (ops.foldl stepOp s).realm.messages_.data := by
  induction ops with
  | nil => intro s h; simpa using h
  | cons op ops ih =>
      intro s h
      simpa using ih (stepOp s op) (stepOp_inv s op h)

/-- C2 (amended): over any sequential history of ordinary-context pushes,
interrupt-context pushes and drains on one realm, the accepted messages in
push order are exactly the concatenation of all drain results (in drain
order) followed by the messages still pending in the queue; hence the
concatenated drain results are a prefix, in particular a subsequence, of
the accepted sequence. -/
theorem drain_results_account (ops : List QueueOp) :
    (runTrace ops).accepted
      = (runTrace ops).drained ++ (runTrace ops).realm.messages_.data ∧
    List.Sublist (runTrace ops).drained (runTrace ops).accepted := by
  have h := foldl_stepOp_inv ops initState (by simp [initState,
    EngineThread.new, ThreadMessagesVector.empty])
  refine ⟨h, ?_⟩
  rw [show (runTrace ops) = ops.foldl stepOp initState from rfl] at *
  rw [h]
  exact List.sublist_append_left _ _

/-- C2 counterexample: after a single accepted push and no drain, the
concatenation of all drain results (empty) does not equal the accepted
sequence, refuting the claim that the two are always equal. -/
theorem drain_results_cex :
    ¬ ((runTrace [QueueOp.pushOrd msg0]).drained
        = (runTrace [QueueOp.pushOrd msg0]).accepted) := by
  decide

/-- A history step from the fresh state that is not an ordinary-context
push leaves the fresh state unchanged: the fresh queue has capacity 0, so
an interrupt-context push is dropped, and a drain of the empty queue
returns early without reserving. -/
lemma stepOp_fresh (op : QueueOp) (h : op.isOrdinary = false) :
    stepOp initState op = initState := by
  cases op with
  | pushOrd m => simp [QueueOp.isOrdinary] at h
  | pushIRQ m =>
      simp [stepOp, initState, EngineThread.PushMessageIRQ,
        ThreadMessagesVector.size, ThreadMessagesVector.capacity,
        EngineThread.new, ThreadMessagesVector.empty]
  | drain =>
      simp [stepOp, initState, EngineThread.TakeMessages,
        ThreadMessagesVector.size, EngineThread.new,
        ThreadMessagesVector.empty]

/-- A whole history without ordinary-context pushes keeps the fresh
state. -/
lemma foldl_stepOp_fresh (ops : List QueueOp) :
    (∀ op ∈ ops, op.isOrdinary = false) →
    ops.foldl stepOp initState = initState := by
  induction ops with
  | nil => intro _; rfl
  | cons op ops ih =>
      intro h
      rw [List.foldl_cons, stepOp_fresh op (h op (by simp))]
      exact ih (fun o ho => h o (by simp [ho]))

/-- C10: a freshly constructed realm has reserved capacity 0, so under any
history containing no ordinary-context push the realm stays in its fresh
state (capacity 0, queue empty) and every interrupt-context push is
silently dropped (nothing is ever accepted and nothing is ever drained);
the first ordinary-context push is what grows the storage. -/
theorem irq_push_starvation (ops : List QueueOp) (m : ThreadMessage)
    (h : ∀ op ∈ ops, op.isOrdinary = false) :
    EngineThread.new.messages_.capacity = 0 ∧
    (runTrace ops).realm = EngineThread.new ∧
    (runTrace ops).accepted = [] ∧
    (runTrace ops).drained = [] ∧
    0 < (EngineThread.new.PushMessage m).messages_.capacity := by
  have hrun : runTrace ops = initState := foldl_stepOp_fresh ops h
  refine ⟨rfl, ?_, ?_, ?_, ?_⟩
  · rw [hrun]; rfl
  · rw [hrun]; rfl
  · rw [hrun]; rfl
  · simp [EngineThread.PushMessage, EngineThread.new,
      ThreadMessagesVector.push_back, ThreadMessagesVector.capacity,
      ThreadMessagesVector.empty]

/-- Witness for C10 on a concrete interrupt-only history. -/
theorem irq_push_starvation_witness :
    EngineThread.new.messages_.capacity = 0 ∧
    (runTrace [QueueOp.pushIRQ msg0, QueueOp.drain]).realm
      = EngineThread.new ∧
    (runTrace [QueueOp.pushIRQ msg0, QueueOp.drain]).accepted = [] ∧
    (runTrace [QueueOp.pushIRQ msg0, QueueOp.drain]).drained = [] ∧
    0 < (EngineThread.new.PushMessage msg0).messages_.capacity :=
  irq_push_starvation [QueueOp.pushIRQ msg0, QueueOp.drain] msg0 (by decide)

/-- A lock acquisition or release on the registry's `datalocker_`
(`ScopedLock` acquires on construction and releases on scope exit, on
every exit path including the early return). -/
inductive LockEvent
  | acquire
  | release
deriving DecidableEq

/-- The per-core realm registry, `Engine::Threads`: the permanent list of
all realms ever created (`threads_`), the staging list of realms not yet
claimed by the scheduler (`new_threads_`), and an allocation counter
standing for the allocator that makes every `new EngineThread` a distinct
object (realm handles are modelled by these distinct ids). -/
structure Threads where
  threads_ : List Nat
  new_threads_ : List Nat
  next_ : Nat
deriving DecidableEq

/-- A fresh registry: both lists empty, as built by `Threads(Engine*)`. -/
def Threads.init : Threads :=
  ⟨[], [], 0⟩

/-- `Engine::Threads::Create`: under the lock, allocates a new realm,
appends it to the permanent list and its handle to the staging list, and
returns the handle. -/
def Threads.Create (r : Threads) : Nat × Threads :=
  (r.next_,
   { threads_ := r.threads_ ++ [r.next_],
     new_threads_ := r.new_threads_ ++ [r.next_],
     next_ := r.next_ + 1 })

/-- `Engine::Threads::TakeNewThreads`, instrumented with the lock events
of its `ScopedLock`: the lock is acquired first; if the permanent list is
empty the early return releases it and yields the default-constructed
(empty) transport; otherwise the staging list is swapped into the
transport (leaving it empty) and returned. -/
def Threads.TakeNewThreadsEv (r : Threads) :
    List Nat × Threads × List LockEvent :=
  if r.threads_.length = 0 then
    ([], r, [LockEvent.acquire, LockEvent.release])
  else
    (r.new_threads_, { r with new_threads_ := [] },
     [LockEvent.acquire, LockEvent.release])

/-- `Engine::Threads::TakeNewThreads`: result and state, without the lock
instrumentation. -/
def Threads.TakeNewThreads (r : Threads) : List Nat × Threads :=
  ((r.TakeNewThreadsEv).1, (r.TakeNewThreadsEv).2.1)

/-- `Create` called `n` times in a row, returning the handles in call
order and the final registry state. -/
def createN : Nat → Threads → List Nat × Threads
  | 0, r => ([], r)
  | Nat.succ n, r =>
      let p := r.Create
      let q := createN n p.2
      (p.1 :: q.1, q.2)

/-- Closed form of `createN`: the handles are the `n` consecutive ids from
the allocation counter, appended to both lists. -/
lemma createN_eq : ∀ (n : Nat) (r : Threads),
    createN n r
      = (List.range' r.next_ n,
         { threads_ := r.threads_ ++ List.range' r.next_ n,
           new_threads_ := r.new_threads_ ++ List.range' r.next_ n,
           next_ := r.next_ + n }) := by
  intro n
  induction n with
  | zero => intro r; simp [createN]
  | succ n ih =>
      intro r
      simp only [createN, Threads.Create, ih, List.range'_succ]
      refine Prod.ext rfl ?_
      simp [List.append_assoc]
      omega

/-- C5: starting from a fresh registry, `N ≥ 1` calls to `Create` yield
`N` pairwise-distinct realm handles; the first subsequent
`TakeNewThreads` returns exactly those `N` handles in creation order and
leaves the staging list empty, and an immediately following second
`TakeNewThreads` returns an empty result. -/
theorem registry_create_take (N : Nat) (h : 1 ≤ N) :
    (createN N Threads.init).1.Nodup ∧
    (createN N Threads.init).1.length = N ∧
    ((createN N Threads.init).2.TakeNewThreads).1
      = (createN N Threads.init).1 ∧
    ((createN N Threads.init).2.TakeNewThreads).2.new_threads_ = [] ∧
    ((((createN N Threads.init).2.TakeNewThreads).2).TakeNewThreads).1
      = [] := by
  have hN : ¬ N = 0 := by omega
  rw [createN_eq N Threads.init]
  refine ⟨List.nodup_range' 0 N, by simp, ?_, ?_, ?_⟩ <;>
    simp [Threads.init, Threads.TakeNewThreads, Threads.TakeNewThreadsEv, hN]

/-- Witness for C5 at `N = 3`. -/
theorem registry_create_take_witness :
    (createN 3 Threads.init).1.Nodup ∧
    (createN 3 Threads.init).1.length = 3 ∧
    ((createN 3 Threads.init).2.TakeNewThreads).1
      = (createN 3 Threads.init).1 ∧
    ((createN 3 Threads.init).2.TakeNewThreads).2.new_threads_ = [] ∧
    ((((createN 3 Threads.init).2.TakeNewThreads).2).TakeNewThreads).1
      = [] :=
  registry_create_take 3 (by decide)

/-- C6 counterexample: on a registry that has never created a realm, the
claim that `TakeNewThreads` returns empty with no locking side effects is
false, because the operation does acquire (and release) the registry lock:
its `ScopedLock` is constructed before the emptiness check. -/
theorem takeNewThreads_lock_cex :
    ¬ ((Threads.init.TakeNewThreadsEv).1 = [] ∧
       (Threads.init.TakeNewThreadsEv).2.2 = []) := by
  decide

/-- C6 (amended): on a registry whose permanent list is empty (no realm
ever created), `TakeNewThreads` returns an empty result and leaves the
registry state (both lists) unchanged, but it does acquire and then
release the registry lock exactly once — the net lock state is unchanged,
yet the acquisition happens. -/
theorem takeNewThreads_fresh (r : Threads) (h : r.threads_ = []) :
    (r.TakeNewThreadsEv).1 = [] ∧
    (r.TakeNewThreadsEv).2.1 = r ∧
    (r.TakeNewThreadsEv).2.2 = [LockEvent.acquire, LockEvent.release] := by
  simp [Threads.TakeNewThreadsEv, h]

/-- Witness for C6 on the fresh registry. -/
theorem takeNewThreads_fresh_witness :
    (Threads.init.TakeNewThreadsEv).1 = [] ∧
    (Threads.init.TakeNewThreadsEv).2.1 = Threads.init ∧
    (Threads.init.TakeNewThreadsEv).2.2
      = [LockEvent.acquire, LockEvent.release] :=
  takeNewThreads_fresh Threads.init rfl

/-- Core role, from `enum class EngineType`. -/
inductive EngineType
  | DISABLED
  | EXECUTION
  | SERVICE
deriving DecidableEq

/-- An execution context, from `Isolate::Isolate(Engine*, uint32_t id,
bool startup_script)` in isolate.cc: the stored core id and first-boot
flag.  The engine back-pointer, the scripting-engine instance and the
thread manager it allocates are external collaborators. -/
structure Isolate where
  id_ : Nat
  startup_script_ : Bool
deriving DecidableEq

/-- The `Isolate` constructor body, restricted to its observable stored
fields. -/
def Isolate.construct (id : Nat) (startup_script : Bool) : Isolate :=
  ⟨id, startup_script⟩

/-- A core context, from `class Engine`: role, optional owned execution
context, the init flag, and the owned registry.  The fallback per-core
key/value store (`local_storage_`) is not needed by any claim here. -/
structure Engine where
  type_ : EngineType
  isolate_ : Option Isolate
  init_ : Bool
  threads_ : Threads
deriving DecidableEq

/-- The `Engine(EngineType)` constructor: `isolate_(nullptr)`,
`init_(false)`, empty registry. -/
def Engine.construct (ty : EngineType) : Engine :=
  ⟨ty, none, false, Threads.init⟩

/-- The designated bootstrap core: `Engine::Enter` computes the first-boot
flag as `1 == cpu_id`. -/
def bootstrapCoreId : Nat :=
  1

/-- Result of `Engine::Enter`, which never returns normally: a failed
`RT_ASSERT` aborts the kernel; the `DISABLED` role halts the core; the
`SERVICE` role spins forever; the `EXECUTION` role constructs the isolate,
marks the engine initialized and delegates to `Isolate::Enter` (which
enters the scheduler loop and does not return). -/
inductive EnterOutcome
  | fatalAssert
  | hangSystem
  | spinForever
  | delegated (iso : Isolate) (e : Engine)
deriving DecidableEq

/-- `Engine::Enter`, with the current core id (`Cpu::id()`) passed
explicitly.  The entry assertions `RT_ASSERT(!init_)` and
`RT_ASSERT(!isolate_)` guard against re-entry; the role switch follows the
source, with the `default` arm unrepresentable in the three-constructor
role type. -/
def Engine.Enter (e : Engine) (cpu_id : Nat) : EnterOutcome :=
  if e.init_ then EnterOutcome.fatalAssert
  else if e.isolate_.isSome then EnterOutcome.fatalAssert
  else
    match e.type_ with
    | EngineType.DISABLED => EnterOutcome.hangSystem
    | EngineType.SERVICE => EnterOutcome.spinForever
    | EngineType.EXECUTION =>
        EnterOutcome.delegated (Isolate.construct cpu_id (cpu_id == 1))
          { e with
              isolate_ := some (Isolate.construct cpu_id (cpu_id == 1)),
              init_ := true }

/-- C7: entering a core context in the `EXECUTION` role from the
uninitialized state constructs exactly one execution context whose core id
equals the calling core's id and whose first-boot flag is true if and only
if the calling core is the designated bootstrap core, stores it, marks the
engine initialized, and delegates to the execution context's entry
point. -/
theorem enter_executing (e : Engine) (cpu_id : Nat)
    (h1 : e.type_ = EngineType.EXECUTION) (h2 : e.init_ = false)
    (h3 : e.isolate_ = none) :
    ∃ iso e2, e.Enter cpu_id = EnterOutcome.delegated iso e2 ∧
      iso.id_ = cpu_id ∧
      (iso.startup_script_ = true ↔ cpu_id = bootstrapCoreId) ∧
      e2.isolate_ = some iso ∧ e2.init_ = true := by
  refine ⟨Isolate.construct cpu_id (cpu_id == 1),
    { e with isolate_ := some (Isolate.construct cpu_id (cpu_id == 1)),
             init_ := true }, ?_, rfl, ?_, rfl, rfl⟩
  · simp [Engine.Enter, h1, h2, h3]
  · simp [Isolate.construct, bootstrapCoreId]

/-- Witness for C7 on the bootstrap core. -/
theorem enter_executing_witness :
    ∃ iso e2, (Engine.construct EngineType.EXECUTION).Enter 1
        = EnterOutcome.delegated iso e2 ∧
      iso.id_ = 1 ∧
      (iso.startup_script_ = true ↔ 1 = bootstrapCoreId) ∧
      e2.isolate_ = some iso ∧ e2.init_ = true :=
  enter_executing (Engine.construct EngineType.EXECUTION) 1 rfl rfl rfl

/-- C9: `Enter` runs exactly once per core context — on a freshly
constructed engine the re-entry assertions pass (the outcome is never the
assertion abort), and if a first call completed initialization (reaching
the delegation to the execution context), a second call on the resulting
state fails the re-entry assertion and aborts the kernel. -/
theorem enter_exactly_once (ty : EngineType) (cpu cpu2 : Nat)
    (iso : Isolate) (e2 : Engine)
    (h : (Engine.construct ty).Enter cpu = EnterOutcome.delegated iso e2) :
    (Engine.construct ty).Enter cpu ≠ EnterOutcome.fatalAssert ∧
    e2.Enter cpu2 = EnterOutcome.fatalAssert := by
  constructor
  · cases ty <;> simp [Engine.Enter, Engine.construct]
  · cases ty <;> simp [Engine.Enter, Engine.construct] at h
    obtain ⟨-, h2⟩ := h
    rw [← h2]
    simp [Engine.Enter]

/-- Concrete post-initialization engine state for the C9 witness. -/
def engC9 : Engine :=
  ⟨EngineType.EXECUTION, some ⟨1, true⟩, true, Threads.init⟩

/-- Witness for C9: first entry on a fresh executing core passes the
assertions; re-entry on the initialized state aborts. -/
theorem enter_exactly_once_witness :
    (Engine.construct EngineType.EXECUTION).Enter 1
        ≠ EnterOutcome.fatalAssert ∧
    engC9.Enter 0 = EnterOutcome.fatalAssert :=
  enter_exactly_once EngineType.EXECUTION 1 0 ⟨1, true⟩ engC9 (by decide)

/-- C8: reading a message's sender requires the sender to be present —
when the sender handle is absent (a system-originated message) the read
fails the assertion and aborts the kernel, and when a sender is stored the
read returns exactly that handle. -/
theorem sender_contract (m : ThreadMessage) (s : Nat)
    (hs : m.sender_ = some s)
    (m2 : ThreadMessage) (h2 : m2.sender_ = none) :
    m.sender = AssertOutcome.ok s ∧
    m2.sender = AssertOutcome.fatalAssert := by
  constructor
  · simp [ThreadMessage.sender, hs]
  · simp [ThreadMessage.sender, h2]

/-- A concrete message with a sender, for the C8 witness. -/
def msgC8 : ThreadMessage :=
  ⟨MessageType.FUNCTION_CALL, some 7, 0, none, 3, false⟩

/-- A concrete system-originated message (no sender), for the C8
witness. -/
def msgSys : ThreadMessage :=
  ⟨MessageType.TIMEOUT_EVENT, none, 0, none, 0, false⟩

/-- Witness for C8 on concrete messages. -/
theorem sender_contract_witness :
    msgC8.sender = AssertOutcome.ok 7 ∧
    msgSys.sender = AssertOutcome.fatalAssert :=
  sender_contract msgC8 7 rfl msgSys rfl
